import Mathlib

/-!
Shallow embedding of the scheduling / review-queue core of the
sinhala-trainer repository (src/src/App.tsx and the two unnamed revisions
src/unnamed/part_000, src/unnamed/part_001).

Modelling conventions:
* TypeScript `number` values used in SRS arithmetic (ease, interval,
  timestamps, strength) are modelled as `ℚ`; counters (`reps`, `lapses`,
  indices) as `ℕ`.
* `Math.max` is `ratMax` and `Math.round` is `jsRound` (kernel-computable;
  bridged to the Mathlib `max` and `round` by `ratMax_eq_max` and
  `jsRound_eq_round`).
* `Array.slice(0, n)` is `List.take n`, `Array.filter` is `List.filter`,
  the JS stable `sort` is `List.insertionSort`.
* The random `shuffle` is an explicit function parameter `sh`; theorems
  that need it assume only that `sh l` is a permutation of `l`.
* `state.srs` (a JS object keyed by card id, keys unique) is a
  `List SRSCard` looked up by id; `Object.keys(srs).length` is `srs.length`.
* The session-size setting `5 | 10 | 20 | "unlimited"` is `Option ℕ`
  (`none` = `"unlimited"`).
* Strings that are only compared for equality stay `String`; the sentence
  tokens of the word-order check (which are concatenated with spaces and
  compared) are modelled as `List Char`.
-/

attribute [local semireducible] Rat.add Rat.sub Rat.mul Rat.inv Rat.ofScientific

/-- Source `VocabEntry` / `CardData` from App.tsx. -/
structure CardData where
  id : String
  category : String
  english : String
  phonetic : String
deriving DecidableEq, Repr

/-- Source `SRSCard` from App.tsx. -/
structure SRSCard where
  id : String
  reps : Nat
  lapses : Nat
  ease : ℚ
  interval : ℚ
  due : ℚ
  lastReviewed : Option ℚ
  strength : ℚ
deriving DecidableEq, Repr

/-- Source `Session` from App.tsx. -/
structure Session where
  studyQueue : List CardData
  index : Nat
  active : Bool
  totalCards : Nat
  sessionCategory : String
deriving DecidableEq, Repr

/-- Source `SentenceEntry` from App.tsx (token strings kept opaque here; the
word-order check of the sentence builder is modelled separately on
`List Char` tokens, see `joinSpace`). -/
structure SentenceEntry where
  id : String
  english : String
  phonetic : String
  tokens : List String
  distractors : List String
deriving DecidableEq, Repr

/-- Source `SentenceSession` from App.tsx. -/
structure SentenceSession where
  queue : List SentenceEntry
  index : Nat
  active : Bool
  totalCards : Nat
  sessionCategory : String
  isReview : Bool
deriving DecidableEq, Repr

/-- One element of `SENTENCE_CATEGORIES_DATA` from App.tsx. -/
structure SentenceCategory where
  id : String
  label : String
  sentenceIds : List String
deriving DecidableEq, Repr

/-- The persistent learner state of App.tsx (`AppState`), restricted to the
fields the scheduling core reads or writes. -/
structure AppState where
  srs : List SRSCard
  totalReviews : Nat
  correctReviews : Nat
  sessionSize : Option Nat
deriving DecidableEq, Repr

/-- Source `const MAX_NEW_CARDS_TO_LEARN = 5` (App.tsx). -/
def MAX_NEW_CARDS_TO_LEARN : Nat := 5

/-- Source `const WEAK_CARD_MULTIPLIER = 3` (App.tsx). -/
def WEAK_CARD_MULTIPLIER : Nat := 3

/-- Source `const FULL_REVIEW_ID = "full-review-mode"` (App.tsx). -/
def FULL_REVIEW_ID : String := "full-review-mode"

/-- JS `Math.max(a, b)` on the rationals (kernel-computable; equal to
the Mathlib `max`, see `ratMax_eq_max`). -/
def ratMax (a b : ℚ) : ℚ := if a ≤ b then b else a

/-- JS `Math.round(x)`, which is `floor(x + 0.5)` for every finite number
(kernel-computable; equal to the Mathlib `round`, see `jsRound_eq_round`). -/
def jsRound (x : ℚ) : ℤ := (x + 1/2).floor

/-- Source `calculateSM2(card, quality)` from App.tsx lines 470-510 (identical in
part_000 and part_001).  The exogenous clock `new Date().getTime()` is the
injected parameter `now`. -/
def calculateSM2 (card : SRSCard) (quality : Nat) (now : ℚ) : SRSCard :=
  if 3 ≤ quality then
    let reps := card.reps + 1
    let lapses := card.lapses
    let ease := card.ease +
      ((1 : ℚ)/10 - (3 - (quality : ℚ)) * ((8 : ℚ)/100 + (3 - (quality : ℚ)) * ((2 : ℚ)/100)))
    let ease := ratMax ((13 : ℚ)/10) ease
    let interval : ℚ :=
      if reps = 1 then 1
      else if reps = 2 then 6
      else ((jsRound (card.interval * ease) : ℤ) : ℚ)
    { id := card.id, reps := reps, lapses := lapses, ease := ease,
      interval := interval, due := now + interval * 86400000,
      lastReviewed := some now, strength := ratMax 0 (100 - (lapses : ℚ) * 15) }
  else
    let reps := 0
    let lapses := card.lapses + 1
    let interval : ℚ := 1
    let ease := ratMax ((13 : ℚ)/10) (card.ease - (2 : ℚ)/10)
    { id := card.id, reps := reps, lapses := lapses, ease := ease,
      interval := interval, due := now + interval * 86400000,
      lastReviewed := some now, strength := ratMax 0 (100 - (lapses : ℚ) * 15) }

/-- The default card synthesised in App.tsx `handleCardComplete` for a word
with no SRS record yet: `{ id, reps: 0, lapses: 0, ease: 2.5, interval: 0,
due: 0, strength: 100 }`. -/
def freshSRSCard (wid : String) : SRSCard :=
  { id := wid, reps := 0, lapses := 0, ease := (5 : ℚ)/2, interval := 0,
    due := 0, lastReviewed := none, strength := 100 }

/-- The adjusted ease factor computed by the success branch of
`calculateSM2` (`ease + (0.1 - (3 - quality) * (0.08 + (3 - quality) *
0.02))`, floored at 1.3). -/
def successEase (card : SRSCard) (quality : Nat) : ℚ :=
  ratMax ((13 : ℚ)/10) (card.ease +
    ((1 : ℚ)/10 - (3 - (quality : ℚ)) * ((8 : ℚ)/100 + (3 - (quality : ℚ)) * ((2 : ℚ)/100))))

/-- Source `state.srs[id]` on the id-keyed record object. -/
def srsLookup (srs : List SRSCard) (wid : String) : Option SRSCard :=
  srs.find? (fun c => c.id == wid)

/-- Source `(state.srs[a.id]?.due || 0)` from the due-queue sort comparator.
(For `due` the JS `|| 0` maps a missing record, and a record with
`due === 0`, to `0`, which `getD 0` reproduces.) -/
def dueOrZero (srs : List SRSCard) (w : CardData) : ℚ :=
  ((srsLookup srs w.id).map (fun c => c.due)).getD 0

/-- Source `(state.srs[a.id]?.strength || 100)` from the weak-card sort comparator
of App.tsx `startFullReviewSession`.  JS `||` sends a *stored* strength of
`0` to `100` as well, so this is not simply `getD 100`. -/
def strengthOrHundred (srs : List SRSCard) (w : CardData) : ℚ :=
  match srsLookup srs w.id with
  | some c => if c.strength = 0 then 100 else c.strength
  | none => 100

/-- Source `categoryVocabPools[cat]` from the App.tsx stats memo: the catalog
restricted to one category, in catalog order. -/
def vocabPoolFor (allWords : List CardData) (cat : String) : List CardData :=
  allWords.filter (fun w => w.category == cat)

/-- Source `allCategoryStats[cat].reviewQueue`: in-category words with an SRS
record whose `due <= today`, sorted ascending by `due` (JS stable sort
modelled by `insertionSort`). -/
def reviewQueueFor (srs : List SRSCard) (allWords : List CardData) (now : ℚ)
    (cat : String) : List CardData :=
  List.insertionSort (fun a b => dueOrZero srs a ≤ dueOrZero srs b)
    ((vocabPoolFor allWords cat).filter (fun w =>
      match srsLookup srs w.id with
      | some c => decide (c.due ≤ now)
      | none => false))

/-- Source `allCategoryStats[cat].newCards` before the shuffle: in-category words
with no SRS record. -/
def newCardsFor (srs : List SRSCard) (allWords : List CardData)
    (cat : String) : List CardData :=
  (vocabPoolFor allWords cat).filter (fun w => (srsLookup srs w.id).isNone)

/-- Steps 1-2 of App.tsx `startSession` (lines 1060-1071): fill with due
reviews first (up to the session limit), then add new cards capped by the
remaining budget and `MAX_NEW_CARDS_TO_LEARN`. -/
def buildStudyQueue (reviews newCards : List CardData) (sessionLimit : Nat) :
    List CardData :=
  let numReviews := min reviews.length sessionLimit
  let q1 := reviews.take numReviews
  let remainingLimit := sessionLimit - numReviews
  let numNewCards := min (min newCards.length remainingLimit) MAX_NEW_CARDS_TO_LEARN
  q1 ++ newCards.take numNewCards

/-- Modelled from the spec: the standard-session selection order asserted in
section 4.2 ("take up to `min(newItemCap, sessionSizeLimit)` new items, then
fill remaining budget (`sessionSizeLimit - newTaken`) from the due queue in
sorted order").  Used only to compare against `buildStudyQueue`; it also
matches the earlier revision src/unnamed/part_000 lines 515-545, which slices
the new queue first. -/
def buildStudyQueueSpecNewFirst (reviews newCards : List CardData)
    (sessionSizeLimit newItemCap : Nat) : List CardData :=
  let newTaken := min newCards.length (min newItemCap sessionSizeLimit)
  newCards.take newTaken ++ reviews.take (sessionSizeLimit - newTaken)

/-- The empty-queue guard plus `setSession` shared by App.tsx
`startSession` and `startFullReviewSession`: refuse an empty queue,
otherwise store its shuffle with `index = 0`, `active = true`,
`totalCards = queue.length`. -/
def sessionFromQueue (sh : List CardData → List CardData)
    (queue : List CardData) (cat : String) : Option Session :=
  if queue.length = 0 then none
  else some { studyQueue := sh queue, index := 0, active := true,
              totalCards := queue.length, sessionCategory := cat }

/-- Source `startSession(categoryId)` from App.tsx lines 1049-1085.  `sh` is the
`shuffle` function (the new queue arrives already shuffled in the source
stats memo, hence `sh` around `newCardsFor`; the final queue is shuffled
before being stored).  Returns `none` where the source returns without
creating a session. -/
def startSession (sh : List CardData → List CardData) (srs : List SRSCard)
    (allWords : List CardData) (now : ℚ) (sessionSize : Option Nat)
    (categoryId : String) : Option Session :=
  let pool := vocabPoolFor allWords categoryId
  if pool.length = 0 then none
  else
    let reviews := reviewQueueFor srs allWords now categoryId
    let newCards := sh (newCardsFor srs allWords categoryId)
    let sessionLimit := match sessionSize with
      | none => allWords.length
      | some n => n
    sessionFromQueue sh (buildStudyQueue reviews newCards sessionLimit) categoryId

/-- The `weakCards` of App.tsx `startFullReviewSession` (lines 1088-1091):
words with a record and `strength < 70`, sorted ascending by strength. -/
def weakCardsOf (srs : List SRSCard) (allWords : List CardData) : List CardData :=
  List.insertionSort
    (fun a b => strengthOrHundred srs a ≤ strengthOrHundred srs b)
    (allWords.filter (fun w =>
      match srsLookup srs w.id with
      | some c => decide (c.strength < 70)
      | none => false))

/-- Source `state.sessionSize === "unlimited" ? totalCardsToReview :
Math.min(Number(state.sessionSize), totalCardsToReview)` with
`totalCardsToReview = Object.keys(state.srs).length`. -/
def fullReviewLimit (srs : List SRSCard) (sessionSize : Option Nat) : Nat :=
  match sessionSize with
  | none => srs.length
  | some n => min n srs.length

/-- The `reviewQueue` built inside App.tsx `startFullReviewSession` (lines
1099-1113) before the final shuffle: the capped weak selection followed, if
slots remain, by shuffled already-reviewed cards not yet in the queue. -/
def fullReviewQueue (sh : List CardData → List CardData) (srs : List SRSCard)
    (allWords : List CardData) (sessionSize : Option Nat) : List CardData :=
  let weakCards := weakCardsOf srs allWords
  let sessionLimit := fullReviewLimit srs sessionSize
  let numWeak := min (weakCards.length * WEAK_CARD_MULTIPLIER) sessionLimit
  let queue1 := (sh weakCards).take numWeak
  let remainingSlots := sessionLimit - queue1.length
  if 0 < remainingSlots then
    let allReviewedCards := allWords.filter (fun w => (srsLookup srs w.id).isSome)
    let alreadyInQueueIds := queue1.map (fun c => c.id)
    let fillerCandidates :=
      sh (allReviewedCards.filter (fun c => ¬ alreadyInQueueIds.contains c.id))
    queue1 ++ fillerCandidates.take remainingSlots
  else queue1

/-- Source `startFullReviewSession()` from App.tsx lines 1087-1127: build the
review queue (see `fullReviewQueue`), refuse an empty queue, otherwise
store its final shuffle as the session. -/
def startFullReviewSession (sh : List CardData → List CardData)
    (srs : List SRSCard) (allWords : List CardData)
    (sessionSize : Option Nat) : Option Session :=
  sessionFromQueue sh (fullReviewQueue sh srs allWords sessionSize) FULL_REVIEW_ID

/-- The empty-queue guard plus `setSentenceSession` of App.tsx
`startSentencePractice`: the already-shuffled-and-capped queue is stored
as given. -/
def sentenceSessionFromQueue (queue : List SentenceEntry) (label : String) :
    Option SentenceSession :=
  if queue.length = 0 then none
  else some { queue := queue, index := 0, active := true,
              totalCards := queue.length,
              sessionCategory := label, isReview := false }

/-- Source `startSentencePractice(categoryId)` from App.tsx lines 1003-1026.
`sentenceMap` is `SENTENCE_MAP` (external data), `categories` is
`SENTENCE_CATEGORIES_DATA`. -/
def startSentencePractice (sh : List SentenceEntry → List SentenceEntry)
    (categories : List SentenceCategory)
    (sentenceMap : String → Option SentenceEntry)
    (sessionSize : Option Nat) (categoryId : String) : Option SentenceSession :=
  match categories.find? (fun c => c.id == categoryId) with
  | none => none
  | some categoryInfo =>
    let categorySentences := categoryInfo.sentenceIds.filterMap sentenceMap
    let sessionLimit := match sessionSize with
      | none => categorySentences.length
      | some n => n
    sentenceSessionFromQueue ((sh categorySentences).take sessionLimit)
      categoryInfo.label

/-- The session object created by App.tsx `setSession` at session start:
`index = 0`, `active = true`, `totalCards = queue.length`. -/
def startedSession (q : List CardData) (cat : String) : Session :=
  { studyQueue := q, index := 0, active := true, totalCards := q.length,
    sessionCategory := cat }

/-- The `setSession` updater inside App.tsx `handleCardComplete` (lines
1159-1175): increment the index; if it reaches the queue length, clear
`active` (the state itself is kept until the delayed `endSession` fires). -/
def advanceSession (s : Session) : Session :=
  let newIndex := s.index + 1
  { s with index := newIndex,
           active := if s.studyQueue.length ≤ newIndex then false else s.active }

/-- Source `{ ...s.srs, [wordId]: updatedCard }`: replace the record with the same
id, or append a new one. -/
def srsUpsert (srs : List SRSCard) (c : SRSCard) : List SRSCard :=
  if (srs.find? (fun x => x.id == c.id)).isSome then
    srs.map (fun x => if x.id == c.id then c else x)
  else srs ++ [c]

/-- Source `handleCardComplete(wordId, quality, _isNewCard, isPractice)` from
App.tsx lines 1129-1177, acting on the persistent state and the current
session: no-op when there is no session; otherwise apply `calculateSM2`
and bump the aggregate counters (unless practice mode), and advance the
session index. -/
def handleCardComplete (state : AppState) (session : Option Session)
    (wordId : String) (quality : Nat) (isPractice : Bool) (now : ℚ) :
    AppState × Option Session :=
  match session with
  | none => (state, none)
  | some s =>
    let state1 :=
      if isPractice then state
      else
        let currentCard := (srsLookup state.srs wordId).getD (freshSRSCard wordId)
        let updatedCard := calculateSM2 currentCard quality now
        { state with srs := srsUpsert state.srs updatedCard,
                     totalReviews := state.totalReviews + 1,
                     correctReviews := state.correctReviews +
                       (if 3 ≤ quality then 1 else 0) }
    (state1, some (advanceSession s))

/-- The session component of `handleCardComplete`: the advance as a map on
`Option Session` (see `handleCardComplete_snd`). -/
def advanceStep : Option Session → Option Session
  | none => none
  | some s => some (advanceSession s)

/-- Source `currentCard` memo from App.tsx: `null` unless the session is active,
else `studyQueue[index]` (JS out-of-bounds indexing gives `undefined`). -/
def currentCard (s : Session) : Option CardData :=
  if s.active then s.studyQueue[s.index]? else none

/-- Source `tokens.join(' ')` on tokens modelled as `List Char`. -/
def joinSpace : List (List Char) → List Char
  | [] => []
  | [t] => t
  | t :: ts => t ++ ' ' :: joinSpace ts

/-- The completion check of App.tsx `handleWordClick` (lines 562-580):
once the constructed sentence has as many tokens as `sentence.tokens`,
success is `newSentence.join(' ') === sentence.tokens.join(' ')`. -/
def sentenceSuccess (constructed tokens : List (List Char)) : Bool :=
  joinSpace constructed == joinSpace tokens

/-! Concrete data used by counterexamples, scenarios and witnesses. -/

/-- A catalog word with empty payload text. -/
def mkWord (i c : String) : CardData :=
  { id := i, category := c, english := "", phonetic := "" }

/-- An SRS record with the given id, due timestamp and strength (other
fields at unremarkable defaults). -/
def mkRec (i : String) (d st : ℚ) : SRSCard :=
  { id := i, reps := 1, lapses := 0, ease := (5 : ℚ)/2, interval := 1,
    due := d, lastReviewed := some 0, strength := st }

/-- Prior state for the C2 counterexample: `strength` inconsistent with
`lapses` (no update of `calculateSM2` ever produces this pair). -/
def c2card : SRSCard :=
  { id := "c2", reps := 3, lapses := 0, ease := (5 : ℚ)/2, interval := 6,
    due := 0, lastReviewed := none, strength := 50 }

/-- Prior state for the C4 counterexample: `reps ≥ 2`, `interval ≥ 1`,
`ease ≥ 1.3`, but a non-integer interval. -/
def c4card : SRSCard :=
  { id := "c4", reps := 2, lapses := 0, ease := (13 : ℚ)/10,
    interval := (21 : ℚ)/20, due := 0, lastReviewed := none, strength := 100 }

/-- Prior state for the C5 counterexample: consistent mid-scale strength
(`lapses = 4`, `strength = 40`), far below the 100 cap. -/
def c5card : SRSCard :=
  { id := "c5", reps := 1, lapses := 4, ease := (5 : ℚ)/2, interval := 6,
    due := 0, lastReviewed := none, strength := 40 }

/-- C6 counterexample inputs: ten due reviews, six new cards. -/
def c6xReviews : List CardData :=
  [mkWord "r1" "cat", mkWord "r2" "cat", mkWord "r3" "cat", mkWord "r4" "cat",
   mkWord "r5" "cat", mkWord "r6" "cat", mkWord "r7" "cat", mkWord "r8" "cat",
   mkWord "r9" "cat", mkWord "r10" "cat"]

/-- C6 counterexample inputs: the six new cards. -/
def c6xNews : List CardData :=
  [mkWord "n1" "cat", mkWord "n2" "cat", mkWord "n3" "cat",
   mkWord "n4" "cat", mkWord "n5" "cat", mkWord "n6" "cat"]

/-- C6 counterexample memory state: records for r1-r10, all due (timestamps
1..10) at `now = 100`. -/
def c6xSrs : List SRSCard :=
  [mkRec "r1" 1 80, mkRec "r2" 2 80, mkRec "r3" 3 80, mkRec "r4" 4 80,
   mkRec "r5" 5 80, mkRec "r6" 6 80, mkRec "r7" 7 80, mkRec "r8" 8 80,
   mkRec "r9" 9 80, mkRec "r10" 10 80]

/-- C6 scenario catalog: 3 due and 20 new words in category "cat", plus a
due and a new word in category "other". -/
def c6words : List CardData :=
  [mkWord "x1" "other", mkWord "d1" "cat", mkWord "n1" "cat",
   mkWord "n2" "cat", mkWord "n3" "cat", mkWord "n4" "cat",
   mkWord "d3" "cat", mkWord "n5" "cat", mkWord "n6" "cat",
   mkWord "n7" "cat", mkWord "n8" "cat", mkWord "n9" "cat",
   mkWord "d2" "cat", mkWord "n10" "cat", mkWord "n11" "cat",
   mkWord "n12" "cat", mkWord "n13" "cat", mkWord "n14" "cat",
   mkWord "n15" "cat", mkWord "n16" "cat", mkWord "n17" "cat",
   mkWord "n18" "cat", mkWord "n19" "cat", mkWord "n20" "cat",
   mkWord "x2" "other"]

/-- C6 scenario memory state: d1,d2,d3 and x1 are due (timestamps 30,10,20,5
at `now = 100`). -/
def c6srs : List SRSCard :=
  [mkRec "d1" 30 80, mkRec "d2" 10 80, mkRec "d3" 20 80, mkRec "x1" 5 80]

/-- C7 counterexample catalog: five weak reviewed words and one strong due
word. -/
def c7words : List CardData :=
  [mkWord "w1" "c", mkWord "w2" "c", mkWord "w3" "c", mkWord "w4" "c",
   mkWord "w5" "c", mkWord "dz" "c"]

/-- C7 counterexample memory state: w1-w5 have strength 50 (weak, not due
for a long time), dz has strength 80 and was due at time 0. -/
def c7srs : List SRSCard :=
  [mkRec "w1" 999999 50, mkRec "w2" 999999 50, mkRec "w3" 999999 50,
   mkRec "w4" 999999 50, mkRec "w5" 999999 50, mkRec "dz" 0 80]

/-- A single card for the C8 counterexample session. -/
def c8card : CardData := mkWord "w1" "cat"

/-- A single-sentence entry for the C9 witness. -/
def c9sentence : SentenceEntry :=
  { id := "s1", english := "hello", phonetic := "ayubowan",
    tokens := ["ayubowan"], distractors := [] }

/-- The sentence map for the C9 witness: only "s1" is present. -/
def c9sentenceMap (sid : String) : Option SentenceEntry :=
  if sid = "s1" then some c9sentence else none

/-- Canonical token list of the C10 counterexample: "a", "b", "a b" (the
third token contains a space). -/
def c10tokens : List (List Char) := [['a'], ['b'], ['a', ' ', 'b']]

/-- Constructed answer of the C10 counterexample: the same three tokens in
a different order. -/
def c10answer : List (List Char) := [['a', ' ', 'b'], ['a'], ['b']]

/-! Bridging lemmas for the computable `Math` models. -/

theorem ratMax_eq_max (a b : ℚ) : ratMax a b = max a b := (max_def a b).symm

theorem ratFloor_eq_intFloor (q : ℚ) : Rat.floor q = ⌊q⌋ := by
  rw [Rat.floor_def, Rat.floor_def']

theorem jsRound_eq_round (x : ℚ) : jsRound x = round x := by
  rw [jsRound, ratFloor_eq_intFloor, round_eq]

/-! Field equations for `calculateSM2`. -/

theorem calculateSM2_ease_floor (card : SRSCard) (q : Nat) (now : ℚ) :
    (13 : ℚ)/10 ≤ (calculateSM2 card q now).ease := by
  unfold calculateSM2
  split <;> dsimp only <;> rw [ratMax_eq_max] <;> exact le_max_left _ _

theorem calculateSM2_success_ease (card : SRSCard) (q : Nat) (now : ℚ)
    (hq : 3 ≤ q) : (calculateSM2 card q now).ease = successEase card q := by
  unfold calculateSM2 successEase
  rw [if_pos hq]

theorem calculateSM2_success_reps (card : SRSCard) (q : Nat) (now : ℚ)
    (hq : 3 ≤ q) : (calculateSM2 card q now).reps = card.reps + 1 := by
  unfold calculateSM2
  rw [if_pos hq]

theorem calculateSM2_success_interval (card : SRSCard) (q : Nat) (now : ℚ)
    (hq : 3 ≤ q) :
    (calculateSM2 card q now).interval =
      (if card.reps + 1 = 1 then (1 : ℚ) else if card.reps + 1 = 2 then 6
       else ((jsRound (card.interval * successEase card q) : ℤ) : ℚ)) := by
  unfold calculateSM2 successEase
  rw [if_pos hq]

/-- C1: for every card state and grade quality in 1..4, the record returned
by `calculateSM2` has `ease ≥ 1.3`; consequently, starting from the fresh
ease of 2.5, ease stays ≥ 1.3 after every update in any sequence of graded
reviews. -/
theorem C1_ease_floor :
    (∀ (card : SRSCard) (q : Nat) (now : ℚ), 1 ≤ q → q ≤ 4 →
      (13 : ℚ)/10 ≤ (calculateSM2 card q now).ease) ∧
    (∀ (gs : List Nat) (now : ℚ), (∀ g ∈ gs, 1 ≤ g ∧ g ≤ 4) →
      (13 : ℚ)/10 ≤ (gs.foldl (fun c g => calculateSM2 c g now) (freshSRSCard "w")).ease) := by
  constructor
  · intro card q now _ _
    exact calculateSM2_ease_floor card q now
  · intro gs now _
    have key : ∀ (l : List Nat) (c : SRSCard), (13 : ℚ)/10 ≤ c.ease →
        (13 : ℚ)/10 ≤ (l.foldl (fun c g => calculateSM2 c g now) c).ease := by
      intro l
      induction l with
      | nil => intro c hc; exact hc
      | cons g t ih => intro c _; exact ih _ (calculateSM2_ease_floor c g now)
    exact key gs (freshSRSCard "w") (by norm_num [freshSRSCard])

theorem C1_witness :
    ((13 : ℚ)/10 ≤ (calculateSM2 (freshSRSCard "w") 1 0).ease) ∧
    ((13 : ℚ)/10 ≤ ([1, 2, 3, 4].foldl (fun c g => calculateSM2 c g 0) (freshSRSCard "w")).ease) :=
  ⟨C1_ease_floor.1 (freshSRSCard "w") 1 0 (by decide) (by decide),
   C1_ease_floor.2 [1, 2, 3, 4] 0 (by decide)⟩

/-- C2 counterexample: on a prior state whose `strength` (50) is not the
value determined by its `lapses` (0), a failing grade returns strength 85 =
`max(0, 100 - 15·1)`, not `max(0, 50 - 15) = 35`: strength is recomputed
from the lapse count, not decremented from the prior strength. -/
theorem C2_counterexample :
    c2card.strength = 50 ∧ c2card.lapses = 0 ∧
    (calculateSM2 c2card 1 0).strength = 85 ∧
    ratMax 0 (c2card.strength - 15) = 35 ∧
    (calculateSM2 c2card 1 0).strength ≠ ratMax 0 (c2card.strength - 15) := by
  decide

/-- C2 (amended): a failing grade (quality < 3) resets `reps` to 0,
increments `lapses`, sets `interval = 1`, sets
`ease = max(1.3, ease - 0.2)`, and recomputes
`strength = max(0, 100 - 15·(lapses+1))`; whenever the prior strength is
itself the value determined by the prior lapse count (as holds for every
record `calculateSM2` produces, and for the fresh card), this equals
`max(0, strength - 15)`. -/
theorem C2_failure_reset :
    ∀ (card : SRSCard) (q : Nat) (now : ℚ), q < 3 →
      (calculateSM2 card q now).reps = 0 ∧
      (calculateSM2 card q now).lapses = card.lapses + 1 ∧
      (calculateSM2 card q now).interval = 1 ∧
      (calculateSM2 card q now).ease = ratMax ((13 : ℚ)/10) (card.ease - (2 : ℚ)/10) ∧
      (calculateSM2 card q now).strength = ratMax 0 (100 - ((card.lapses : ℚ) + 1) * 15) ∧
      (card.strength = ratMax 0 (100 - (card.lapses : ℚ) * 15) →
        (calculateSM2 card q now).strength = ratMax 0 (card.strength - 15)) := by
  intro card q now hq
  have hcond : ¬ 3 ≤ q := by omega
  unfold calculateSM2
  rw [if_neg hcond]
  dsimp only
  refine ⟨rfl, rfl, rfl, rfl, ?_, ?_⟩
  · congr 1
    push_cast
    ring
  · intro hconsist
    rw [hconsist, ratMax_eq_max, ratMax_eq_max, ratMax_eq_max]
    set L : ℚ := (card.lapses : ℚ) with hL
    have hL0 : (0 : ℚ) ≤ L := by positivity
    push_cast
    rcases le_total (100 - L * 15) 0 with h | h
    · rw [max_eq_left h, max_eq_left (by linarith), max_eq_left (by linarith)]
    · rw [max_eq_right h]
      congr 1
      ring

theorem C2_witness :
    (calculateSM2 (freshSRSCard "w") 1 0).reps = 0 ∧
    (calculateSM2 (freshSRSCard "w") 1 0).lapses = 1 ∧
    (calculateSM2 (freshSRSCard "w") 1 0).interval = 1 ∧
    (calculateSM2 (freshSRSCard "w") 1 0).ease =
      ratMax ((13 : ℚ)/10) ((freshSRSCard "w").ease - (2 : ℚ)/10) ∧
    (calculateSM2 (freshSRSCard "w") 1 0).strength =
      ratMax 0 ((freshSRSCard "w").strength - 15) := by
  have h := C2_failure_reset (freshSRSCard "w") 1 0 (by decide)
  exact ⟨h.1, h.2.1, h.2.2.1, h.2.2.2.1, h.2.2.2.2.2 (by decide)⟩

/-- C3: a success-tier grade (quality ≥ 3) increments `reps` and sets the
interval by the repetition-dependent schedule (1st success → 1, 2nd → 6,
3rd+ → `round(interval * ease)` with the already-adjusted ease); grading a
fresh card "Good" (quality 3) three times gives interval 1, 6, then
`round(6 · 2.8) = 17` with ease 2.6, 2.7, 2.8. -/
theorem C3_success_schedule :
    (∀ (card : SRSCard) (q : Nat) (now : ℚ), 3 ≤ q →
      (calculateSM2 card q now).reps = card.reps + 1 ∧
      (calculateSM2 card q now).interval =
        (if card.reps = 0 then (1 : ℚ) else if card.reps = 1 then 6
         else ((jsRound (card.interval * (calculateSM2 card q now).ease) : ℤ) : ℚ))) ∧
    ((calculateSM2 (freshSRSCard "w") 3 0).reps = 1 ∧
     (calculateSM2 (freshSRSCard "w") 3 0).interval = 1 ∧
     (calculateSM2 (freshSRSCard "w") 3 0).ease = 5/2 + 1/10 ∧
     (calculateSM2 (calculateSM2 (freshSRSCard "w") 3 0) 3 0).reps = 2 ∧
     (calculateSM2 (calculateSM2 (freshSRSCard "w") 3 0) 3 0).interval = 6 ∧
     (calculateSM2 (calculateSM2 (freshSRSCard "w") 3 0) 3 0).ease = 27/10 ∧
     (calculateSM2 (calculateSM2 (calculateSM2 (freshSRSCard "w") 3 0) 3 0) 3 0).reps = 3 ∧
     (calculateSM2 (calculateSM2 (calculateSM2 (freshSRSCard "w") 3 0) 3 0) 3 0).ease = 14/5 ∧
     (calculateSM2 (calculateSM2 (calculateSM2 (freshSRSCard "w") 3 0) 3 0) 3 0).interval = 17 ∧
     jsRound ((6 : ℚ) * ((14 : ℚ)/5)) = 17) := by
  constructor
  · intro card q now hq
    refine ⟨calculateSM2_success_reps card q now hq, ?_⟩
    rw [calculateSM2_success_interval card q now hq, calculateSM2_success_ease card q now hq]
    by_cases h0 : card.reps = 0
    · simp [h0]
    · by_cases h1 : card.reps = 1
      · simp [h0, h1]
      · have e1 : ¬ card.reps + 1 = 1 := by omega
        have e2 : ¬ card.reps + 1 = 2 := by omega
        simp [h0, h1, e1, e2]
  · decide

theorem C3_witness :
    (calculateSM2 c2card 4 0).reps = c2card.reps + 1 ∧
    (calculateSM2 c2card 4 0).interval =
      ((jsRound (c2card.interval * (calculateSM2 c2card 4 0).ease) : ℤ) : ℚ) := by
  have h := C3_success_schedule.1 c2card 4 0 (by decide)
  refine ⟨h.1, ?_⟩
  rw [h.2]
  norm_num [c2card]

/-- C4 counterexample: the state `reps = 2, interval = 1.05, ease = 1.3`
satisfies every hypothesis of the claim (`reps ≥ 2`, `interval ≥ 1`, and even
the data-model floor `ease ≥ 1.3`), but a Good grade yields
`round(1.05 · 1.4) = 1 < 1.05`: the interval decreases. -/
theorem C4_counterexample :
    2 ≤ c4card.reps ∧ (1 : ℚ) ≤ c4card.interval ∧ (13 : ℚ)/10 ≤ c4card.ease ∧
    (calculateSM2 c4card 3 0).interval = 1 ∧
    ¬ c4card.interval ≤ (calculateSM2 c4card 3 0).interval := by
  decide


theorem jsRound_nat_mul_ge (n : Nat) (e : ℚ) (he : 1 ≤ e) :
    (n : ℤ) ≤ jsRound ((n : ℚ) * e) := by
  rw [jsRound_eq_round, round_eq, Int.le_floor]
  push_cast
  nlinarith [mul_le_mul_of_nonneg_left he (show (0 : ℚ) ≤ (n : ℚ) by positivity)]

theorem calculateSM2_success_step (card : SRSCard) (q : Nat) (now : ℚ) (n : Nat)
    (hq : 3 ≤ q) (hreps : 2 ≤ card.reps) (hint : card.interval = (n : ℚ)) (hn : 1 ≤ n) :
    ∃ m : Nat, (calculateSM2 card q now).interval = (m : ℚ) ∧ n ≤ m ∧
      2 ≤ (calculateSM2 card q now).reps := by
  have hease := calculateSM2_ease_floor card q now
  rw [calculateSM2_success_ease card q now hq] at hease
  have he1 : (1 : ℚ) ≤ successEase card q := le_trans (by norm_num) hease
  have e1 : ¬ card.reps + 1 = 1 := by omega
  have e2 : ¬ card.reps + 1 = 2 := by omega
  have hval : (calculateSM2 card q now).interval =
      ((jsRound (card.interval * successEase card q) : ℤ) : ℚ) := by
    rw [calculateSM2_success_interval card q now hq, if_neg e1, if_neg e2]
  have hge : (n : ℤ) ≤ jsRound (card.interval * successEase card q) := by
    rw [hint]
    exact jsRound_nat_mul_ge n (successEase card q) he1
  refine ⟨(jsRound (card.interval * successEase card q)).toNat, ?_, ?_, ?_⟩
  · rw [hval]
    congr 1
    omega
  · omega
  · rw [calculateSM2_success_reps card q now hq]
    omega

/-- C4 (amended): on a state with `reps ≥ 2` and an *integer* interval
`≥ 1` (the only intervals `calculateSM2` ever produces), a success-tier
update sets `interval = round(interval * ease)` with the adjusted
`ease ≥ 1.3`, and the new interval is at least the old one; consequently a
sequence of consecutive success-tier updates never decreases the
interval. -/
theorem C4_interval_monotonicity :
    (∀ (card : SRSCard) (q : Nat) (now : ℚ) (n : Nat), 3 ≤ q → 2 ≤ card.reps →
      card.interval = (n : ℚ) → 1 ≤ n →
      ((13 : ℚ)/10 ≤ (calculateSM2 card q now).ease ∧
       (calculateSM2 card q now).interval =
         ((jsRound (card.interval * (calculateSM2 card q now).ease) : ℤ) : ℚ) ∧
       card.interval ≤ (calculateSM2 card q now).interval)) ∧
    (∀ (card : SRSCard) (qs : List Nat) (now : ℚ) (n : Nat), (∀ g ∈ qs, 3 ≤ g) →
      2 ≤ card.reps → card.interval = (n : ℚ) → 1 ≤ n →
      card.interval ≤ (qs.foldl (fun c g => calculateSM2 c g now) card).interval) := by
  constructor
  · intro card q now n hq hreps hint hn
    refine ⟨calculateSM2_ease_floor card q now, ?_, ?_⟩
    · have e1 : ¬ card.reps + 1 = 1 := by omega
      have e2 : ¬ card.reps + 1 = 2 := by omega
      rw [calculateSM2_success_interval card q now hq, if_neg e1, if_neg e2,
        calculateSM2_success_ease card q now hq]
    · obtain ⟨m, hm, hnm, _⟩ := calculateSM2_success_step card q now n hq hreps hint hn
      rw [hint, hm]
      exact_mod_cast hnm
  · intro card qs now n hqs hreps hint hn
    induction qs generalizing card n with
    | nil => exact le_refl _
    | cons g t ih =>
      obtain ⟨m, hm, hnm, hreps2⟩ :=
        calculateSM2_success_step card g now n (hqs g (by simp)) hreps hint hn
      have step := ih (calculateSM2 card g now) m (fun x hx => hqs x (by simp [hx])) hreps2 hm
        (le_trans hn hnm)
      calc card.interval ≤ (calculateSM2 card g now).interval := by
              rw [hint, hm]; exact_mod_cast hnm
        _ ≤ _ := by simpa using step

theorem C4_witness :
    (3 ≤ 3 ∧ 2 ≤ c2card.reps ∧ c2card.interval = ((6 : Nat) : ℚ) ∧ 1 ≤ 6) ∧
    ((13 : ℚ)/10 ≤ (calculateSM2 c2card 3 0).ease ∧
     (calculateSM2 c2card 3 0).interval =
       ((jsRound (c2card.interval * (calculateSM2 c2card 3 0).ease) : ℤ) : ℚ) ∧
     c2card.interval ≤ (calculateSM2 c2card 3 0).interval) ∧
    c2card.interval ≤ ([3, 4, 3].foldl (fun c g => calculateSM2 c g 0) c2card).interval :=
  ⟨⟨by decide, by decide, by decide, by decide⟩,
   C4_interval_monotonicity.1 c2card 3 0 6 (by decide) (by decide) (by decide) (by decide),
   C4_interval_monotonicity.2 c2card [3, 4, 3] 0 6 (by decide) (by decide) (by decide) (by decide)⟩

/-- C5 counterexample: on a consistent mid-scale state (`lapses = 4`,
`strength = 40`), an Easy (quality 4) success leaves strength at exactly
`max(0, 100 - 15·4) = 40`: no grade-dependent positive increment is added,
and Good (3) and Easy (4) give identical strengths. -/
theorem C5_counterexample :
    c5card.strength = 40 ∧ (calculateSM2 c5card 4 0).strength = 40 ∧
    ¬ c5card.strength < (calculateSM2 c5card 4 0).strength ∧
    (calculateSM2 c5card 3 0).strength = (calculateSM2 c5card 4 0).strength := by
  decide

/-- C5 (amended): on a success-tier grade, `calculateSM2` leaves `lapses`
unchanged and recomputes `strength = max(0, 100 - 15·lapses)` from the
lapse count alone; it does not add a grade-dependent increment. -/
theorem C5_strength_recompute :
    ∀ (card : SRSCard) (q : Nat) (now : ℚ), 3 ≤ q →
      (calculateSM2 card q now).strength = ratMax 0 (100 - (card.lapses : ℚ) * 15) ∧
      (calculateSM2 card q now).lapses = card.lapses := by
  intro card q now hq
  unfold calculateSM2
  rw [if_pos hq]
  exact ⟨rfl, rfl⟩

theorem C5_witness :
    (calculateSM2 c5card 4 0).strength = ratMax 0 (100 - ((c5card.lapses : Nat) : ℚ) * 15) ∧
    (calculateSM2 c5card 4 0).lapses = c5card.lapses :=
  C5_strength_recompute c5card 4 0 (by decide)

/-! Session state machine lemmas. -/

theorem handleCardComplete_snd (state : AppState) (s : Option Session)
    (wid : String) (q : Nat) (isP : Bool) (now : ℚ) :
    (handleCardComplete state s wid q isP now).2 = advanceStep s := by
  cases s <;> rfl

theorem advanceStep_iterate (s : Session) (n : Nat) :
    (advanceStep^[n]) (some s) = some (advanceSession^[n] s) := by
  induction n generalizing s with
  | zero => rfl
  | succ n ih =>
    rw [Function.iterate_succ_apply, Function.iterate_succ_apply]
    exact ih (advanceSession s)

theorem advanceSession_queue (s : Session) :
    (advanceSession s).studyQueue = s.studyQueue := rfl

theorem advanceSession_index (s : Session) :
    (advanceSession s).index = s.index + 1 := rfl

theorem advanceSession_iterate_index (s : Session) (n : Nat) :
    (advanceSession^[n] s).index = s.index + n := by
  induction n generalizing s with
  | zero => rfl
  | succ n ih =>
    rw [Function.iterate_succ_apply, ih (advanceSession s), advanceSession_index]
    omega

theorem advanceSession_iterate_active_false (s : Session) (n : Nat)
    (h1 : 1 ≤ n) (h2 : s.studyQueue.length ≤ s.index + n) :
    (advanceSession^[n] s).active = false := by
  induction n generalizing s with
  | zero => omega
  | succ n ih =>
    rw [Function.iterate_succ_apply]
    by_cases hn : 1 ≤ n
    · exact ih (advanceSession s) hn
        (by rw [advanceSession_queue, advanceSession_index]; omega)
    · have hn0 : n = 0 := by omega
      subst hn0
      simp only [Function.iterate_zero, id]
      unfold advanceSession
      dsimp only
      rw [if_pos (by omega)]

/-- C8 counterexample: a session over a one-card queue, advanced twice via
the session step of `handleCardComplete`, reaches index 2 > 1: the extra call on
the completed-but-still-present session is not a no-op on the index. -/
theorem C8_counterexample :
    [c8card].length = 1 ∧
    ((advanceStep^[2]) (some (startedSession [c8card] "cat"))).map
      (fun s => s.index) = some 2 ∧
    ((advanceStep^[2]) (some (startedSession [c8card] "cat"))).map
      (fun s => s.active) = some false ∧
    ¬ (2 : Nat) ≤ 1 := by
  decide

/-- C8 (amended): advancing a freshly started session of queue length N
exactly N times gives `active = false` and `index = N`; one further call of
the advance step while the session object still exists increments the index
to N+1 (it does not leave it at N), with `active` still false and
`currentCard` still `none` - the no-op holds only at the `currentCard`
level, not for the index.  The advance step is exactly the session
component of `handleCardComplete`. -/
theorem C8_session_exhaustion :
    ∀ (q : List CardData) (cat : String), 0 < q.length →
      ((advanceStep^[q.length]) (some (startedSession q cat)) =
        some (advanceSession^[q.length] (startedSession q cat))) ∧
      (∀ (state : AppState) (wid : String) (qual : Nat) (isP : Bool) (now : ℚ)
         (s : Option Session),
         (handleCardComplete state s wid qual isP now).2 = advanceStep s) ∧
      (advanceSession^[q.length] (startedSession q cat)).active = false ∧
      (advanceSession^[q.length] (startedSession q cat)).index = q.length ∧
      (advanceSession^[q.length + 1] (startedSession q cat)).index = q.length + 1 ∧
      (advanceSession^[q.length + 1] (startedSession q cat)).active = false ∧
      currentCard (advanceSession^[q.length] (startedSession q cat)) = none := by
  intro q cat hq
  have hqueue : (startedSession q cat).studyQueue = q := rfl
  have hidx : (startedSession q cat).index = 0 := rfl
  have hactN : (advanceSession^[q.length] (startedSession q cat)).active = false := by
    apply advanceSession_iterate_active_false _ _ hq
    rw [hqueue, hidx]
    omega
  refine ⟨advanceStep_iterate _ _,
    fun state wid qual isP now s => handleCardComplete_snd state s wid qual isP now,
    hactN, ?_, ?_, ?_, ?_⟩
  · rw [advanceSession_iterate_index, hidx]
    omega
  · rw [advanceSession_iterate_index, hidx]
    omega
  · apply advanceSession_iterate_active_false _ _ (by omega)
    rw [hqueue, hidx]
    omega
  · unfold currentCard
    rw [hactN]
    simp

theorem C8_witness :
    ((advanceStep^[1]) (some (startedSession [c8card] "cat")) =
      some (advanceSession^[1] (startedSession [c8card] "cat"))) ∧
    (advanceSession^[1] (startedSession [c8card] "cat")).active = false ∧
    (advanceSession^[1] (startedSession [c8card] "cat")).index = 1 ∧
    (advanceSession^[2] (startedSession [c8card] "cat")).index = 2 ∧
    (advanceSession^[2] (startedSession [c8card] "cat")).active = false ∧
    currentCard (advanceSession^[1] (startedSession [c8card] "cat")) = none := by
  have h := C8_session_exhaustion [c8card] "cat" (by decide)
  exact ⟨h.1, h.2.2.1, h.2.2.2.1, h.2.2.2.2.1, h.2.2.2.2.2.1, h.2.2.2.2.2.2⟩

theorem sessionFromQueue_some {sh : List CardData → List CardData}
    {q : List CardData} {cat : String} {s : Session}
    (h : sessionFromQueue sh q cat = some s) :
    s.studyQueue = sh q ∧ s.active = true ∧ s.totalCards = q.length ∧
    s.sessionCategory = cat ∧ 0 < q.length := by
  unfold sessionFromQueue at h
  rcases Nat.eq_zero_or_pos q.length with h0 | h0
  · rw [if_pos h0] at h
    cases h
  · rw [if_neg (by omega)] at h
    cases h
    exact ⟨rfl, rfl, rfl, rfl, h0⟩

theorem sentenceSessionFromQueue_some {q : List SentenceEntry} {label : String}
    {s : SentenceSession} (h : sentenceSessionFromQueue q label = some s) :
    s.queue = q ∧ s.active = true ∧ s.totalCards = q.length ∧
    s.sessionCategory = label ∧ 0 < q.length := by
  unfold sentenceSessionFromQueue at h
  rcases Nat.eq_zero_or_pos q.length with h0 | h0
  · rw [if_pos h0] at h
    cases h
  · rw [if_neg (by omega)] at h
    cases h
    exact ⟨rfl, rfl, rfl, rfl, h0⟩

/-- C9: none of the session starters ever creates a session from an empty
queue: whenever `startSession`, `startSentencePractice` or
`startFullReviewSession` returns `some` session, that session is `Active`
with a non-empty queue; on an empty queue they return `none` (no session is
created). -/
theorem C9_empty_queue_guard :
    (∀ (sh : List CardData → List CardData) (srs : List SRSCard)
       (allWords : List CardData) (now : ℚ) (ssz : Option Nat) (cat : String)
       (s : Session), (∀ l, List.Perm (sh l) l) →
       startSession sh srs allWords now ssz cat = some s →
       s.active = true ∧ 0 < s.studyQueue.length) ∧
    (∀ (sh : List SentenceEntry → List SentenceEntry)
       (categories : List SentenceCategory) (smap : String → Option SentenceEntry)
       (ssz : Option Nat) (cat : String) (s : SentenceSession),
       startSentencePractice sh categories smap ssz cat = some s →
       s.active = true ∧ 0 < s.queue.length) ∧
    (∀ (sh : List CardData → List CardData) (srs : List SRSCard)
       (allWords : List CardData) (ssz : Option Nat) (s : Session),
       (∀ l, List.Perm (sh l) l) →
       startFullReviewSession sh srs allWords ssz = some s →
       s.active = true ∧ 0 < s.studyQueue.length) := by
  refine ⟨?_, ?_, ?_⟩
  · intro sh srs allWords now ssz cat s hsh h
    unfold startSession at h
    rcases Nat.eq_zero_or_pos (vocabPoolFor allWords cat).length with h1 | h1
    · rw [if_pos h1] at h
      cases h
    · rw [if_neg (by omega)] at h
      obtain ⟨hqueue, hact, -, -, hpos⟩ := sessionFromQueue_some h
      refine ⟨hact, ?_⟩
      rw [hqueue, (hsh _).length_eq]
      exact hpos
  · intro sh categories smap ssz cat s h
    unfold startSentencePractice at h
    rcases hfind : categories.find? (fun c => c.id == cat) with _ | categoryInfo
    · rw [hfind] at h
      cases h
    · rw [hfind] at h
      obtain ⟨hqueue, hact, -, -, hpos⟩ := sentenceSessionFromQueue_some h
      refine ⟨hact, ?_⟩
      rw [hqueue]
      exact hpos
  · intro sh srs allWords ssz s hsh h
    unfold startFullReviewSession at h
    obtain ⟨hqueue, hact, -, -, hpos⟩ := sessionFromQueue_some h
    refine ⟨hact, ?_⟩
    rw [hqueue, (hsh _).length_eq]
    exact hpos

theorem C9_witness :
    ((⟨[mkWord "n1" "cat"], 0, true, 1, "cat"⟩ : Session).active = true ∧
      0 < (⟨[mkWord "n1" "cat"], 0, true, 1, "cat"⟩ : Session).studyQueue.length) ∧
    ((⟨[c9sentence], 0, true, 1, "Greetings", false⟩ : SentenceSession).active = true ∧
      0 < (⟨[c9sentence], 0, true, 1, "Greetings", false⟩ : SentenceSession).queue.length) ∧
    ((⟨[mkWord "r1" "c"], 0, true, 1, FULL_REVIEW_ID⟩ : Session).active = true ∧
      0 < (⟨[mkWord "r1" "c"], 0, true, 1, FULL_REVIEW_ID⟩ : Session).studyQueue.length) :=
  ⟨C9_empty_queue_guard.1 id [] [mkWord "n1" "cat"] 0 (some 10) "cat" _
      (fun l => List.Perm.refl l) (by decide),
   C9_empty_queue_guard.2.1 id [⟨"greetings", "Greetings", ["s1"]⟩]
      c9sentenceMap (some 10) "greetings" _ (by decide),
   C9_empty_queue_guard.2.2 id [mkRec "r1" 0 80] [mkWord "r1" "c"] (some 5) _
      (fun l => List.Perm.refl l) (by decide)⟩

/-- C6 counterexample: with 10 due reviews and 6 new cards available, a
session limit of 10 and the new-item cap of 5, App.tsx `startSession` takes
0 new items (the due queue exhausts the budget first), although the claimed
selection order (new items first, up to `min(cap, limit) = 5`) yields 5 -
as the spec-modelled builder and the part_000 revision do. -/
theorem C6_counterexample :
    (buildStudyQueue c6xReviews c6xNews 10).countP (fun c => c6xNews.contains c) = 0 ∧
    (buildStudyQueueSpecNewFirst c6xReviews c6xNews 10 MAX_NEW_CARDS_TO_LEARN).countP
      (fun c => c6xNews.contains c) = 5 ∧
    min MAX_NEW_CARDS_TO_LEARN 10 = 5 ∧ c6xNews.length = 6 ∧
    ((startSession id c6xSrs (c6xReviews ++ c6xNews) 100 (some 10) "cat").map
      (fun s => s.studyQueue.countP (fun c => (srsLookup c6xSrs c.id).isNone))) = some 0 ∧
    (0 : Nat) ≠ 5 := by
  decide

/-- C6 (amended): App.tsx `startSession` fills from the due queue first
(`dueTaken = min(|due|, L)`) and only then adds new items, capped by the
remaining budget and the new-item cap 5; the queue length never exceeds L
and every queued card comes from the due or new input.  The spec scenario
still holds: for a category with 3 due and 20 new items, session size 10
and cap 5, the built session holds exactly 5 new plus the 3 due items,
8 ≤ 10 cards in total, none outside the category. -/
theorem C6_standard_session :
    (∀ (reviews newCards : List CardData) (L : Nat),
      buildStudyQueue reviews newCards L =
        reviews.take (min reviews.length L) ++
          newCards.take (min (min newCards.length (L - min reviews.length L))
            MAX_NEW_CARDS_TO_LEARN) ∧
      (buildStudyQueue reviews newCards L).length ≤ L ∧
      (∀ c ∈ buildStudyQueue reviews newCards L, c ∈ reviews ∨ c ∈ newCards)) ∧
    (((startSession id c6srs c6words 100 (some 10) "cat").map
        (fun s => s.studyQueue.countP (fun c => (srsLookup c6srs c.id).isNone))) = some 5 ∧
     ((startSession id c6srs c6words 100 (some 10) "cat").map
        (fun s => s.studyQueue.countP (fun c => (srsLookup c6srs c.id).isSome))) = some 3 ∧
     ((startSession id c6srs c6words 100 (some 10) "cat").map
        (fun s => s.studyQueue.length)) = some 8 ∧
     ((startSession id c6srs c6words 100 (some 10) "cat").map
        (fun s => decide (s.studyQueue.length ≤ 10))) = some true ∧
     ((startSession id c6srs c6words 100 (some 10) "cat").map
        (fun s => s.studyQueue.all (fun c => c.category == "cat"))) = some true) := by
  constructor
  · intro reviews newCards L
    refine ⟨rfl, ?_, ?_⟩
    · simp only [buildStudyQueue, List.length_append, List.length_take]
      omega
    · intro c hc
      rcases List.mem_append.1 hc with h | h
      · exact Or.inl (List.take_subset _ _ h)
      · exact Or.inr (List.take_subset _ _ h)
  · decide

theorem C6_witness :
    ((buildStudyQueue c6xReviews c6xNews 10).length ≤ 10) ∧
    (mkWord "r1" "cat" ∈ c6xReviews ∨ mkWord "r1" "cat" ∈ c6xNews) :=
  ⟨(C6_standard_session.1 c6xReviews c6xNews 10).2.1,
   (C6_standard_session.1 c6xReviews c6xNews 10).2.2 (mkWord "r1" "cat") (by decide)⟩

/-- C7 counterexample: with five weak cards (strength 50 < 70) and a
strictly-due strong card `dz` (due at time 0, strength 80), session size 5,
App.tsx `startFullReviewSession` builds a queue in which each weak card
appears exactly once (the 3x multiplier only widens the cap - a slice of a
permutation cannot repeat entries) and the due card is absent: the weak set
is not replicated and strictly-due items are not unioned in. -/
theorem C7_counterexample :
    ((startFullReviewSession id c7srs c7words (some 5)).map
      (fun s => s.studyQueue.count (mkWord "w1" "c"))) = some 1 ∧
    ((startFullReviewSession id c7srs c7words (some 5)).map
      (fun s => decide (mkWord "dz" "c" ∈ s.studyQueue))) = some false ∧
    ((srsLookup c7srs "dz").map (fun c => c.due)) = some 0 ∧
    ¬ (2 : Nat) ≤ 1 := by
  decide

theorem weakCardsOf_nodup {srs : List SRSCard} {allWords : List CardData}
    (hnd : allWords.Nodup) : (weakCardsOf srs allWords).Nodup := by
  unfold weakCardsOf
  exact (List.perm_insertionSort _ _).nodup_iff.mpr (hnd.filter _)

theorem weakCardsOf_reviewed {srs : List SRSCard} {allWords : List CardData}
    {c : CardData} (hc : c ∈ weakCardsOf srs allWords) :
    (srsLookup srs c.id).isSome = true := by
  unfold weakCardsOf at hc
  have hc2 := (List.perm_insertionSort _ _).mem_iff.mp hc
  obtain ⟨-, hp⟩ := List.mem_filter.1 hc2
  rcases hm : srsLookup srs c.id with _ | r
  · rw [hm] at hp
    cases hp
  · rfl

theorem fullReviewQueue_spec (sh : List CardData → List CardData)
    (srs : List SRSCard) (allWords : List CardData) (ssz : Option Nat)
    (hsh : ∀ l, List.Perm (sh l) l) (hnd : allWords.Nodup) :
    (fullReviewQueue sh srs allWords ssz).Nodup ∧
    (∀ c ∈ fullReviewQueue sh srs allWords ssz, (srsLookup srs c.id).isSome = true) ∧
    (fullReviewQueue sh srs allWords ssz).length ≤ fullReviewLimit srs ssz := by
  have hq1_nd : ((sh (weakCardsOf srs allWords)).take
      (min ((weakCardsOf srs allWords).length * WEAK_CARD_MULTIPLIER)
        (fullReviewLimit srs ssz))).Nodup :=
    (List.take_sublist _ _).nodup ((hsh _).nodup_iff.mpr (weakCardsOf_nodup hnd))
  have hq1_mem : ∀ c ∈ (sh (weakCardsOf srs allWords)).take
      (min ((weakCardsOf srs allWords).length * WEAK_CARD_MULTIPLIER)
        (fullReviewLimit srs ssz)), (srsLookup srs c.id).isSome = true := by
    intro c hc
    exact weakCardsOf_reviewed ((hsh _).mem_iff.mp (List.take_subset _ _ hc))
  have hq1_len : ((sh (weakCardsOf srs allWords)).take
      (min ((weakCardsOf srs allWords).length * WEAK_CARD_MULTIPLIER)
        (fullReviewLimit srs ssz))).length ≤ fullReviewLimit srs ssz := by
    rw [List.length_take]
    omega
  simp only [fullReviewQueue]
  rcases Nat.eq_zero_or_pos ((fullReviewLimit srs ssz) -
      ((sh (weakCardsOf srs allWords)).take
        (min ((weakCardsOf srs allWords).length * WEAK_CARD_MULTIPLIER)
          (fullReviewLimit srs ssz))).length) with h0 | h0
  · rw [if_neg (by omega)]
    exact ⟨hq1_nd, hq1_mem, hq1_len⟩
  · rw [if_pos h0]
    have hf_nd : ((sh ((allWords.filter (fun w => (srsLookup srs w.id).isSome)).filter
        (fun c => ¬ (((sh (weakCardsOf srs allWords)).take
          (min ((weakCardsOf srs allWords).length * WEAK_CARD_MULTIPLIER)
            (fullReviewLimit srs ssz))).map (fun c => c.id)).contains c.id))).take
        ((fullReviewLimit srs ssz) - ((sh (weakCardsOf srs allWords)).take
          (min ((weakCardsOf srs allWords).length * WEAK_CARD_MULTIPLIER)
            (fullReviewLimit srs ssz))).length)).Nodup :=
      (List.take_sublist _ _).nodup ((hsh _).nodup_iff.mpr ((hnd.filter _).filter _))
    refine ⟨List.Nodup.append hq1_nd hf_nd ?_, ?_, ?_⟩
    · intro c hc1 hc2
      have hc3 := (hsh _).mem_iff.mp (List.take_subset _ _ hc2)
      obtain ⟨-, hp⟩ := List.mem_filter.1 hc3
      have hid : c.id ∈ ((sh (weakCardsOf srs allWords)).take
          (min ((weakCardsOf srs allWords).length * WEAK_CARD_MULTIPLIER)
            (fullReviewLimit srs ssz))).map (fun c => c.id) :=
        List.mem_map_of_mem _ hc1
      simp at hp hid
      exact hp hid
    · intro c hc
      rcases List.mem_append.1 hc with h | h
      · exact hq1_mem c h
      · have hc3 := (hsh _).mem_iff.mp (List.take_subset _ _ h)
        obtain ⟨hc4, -⟩ := List.mem_filter.1 hc3
        obtain ⟨-, hp⟩ := List.mem_filter.1 hc4
        exact hp
    · simp only [List.length_append, List.length_take]
      omega

/-- C7 (amended): App.tsx `startFullReviewSession` selects the weakest cards
(strength < 70, sorted ascending) but caps them at
`min(3·|weak|, sessionLimit)` with each card appearing at most once - the
3x multiplier only widens the cap, nothing is replicated - and fills any
remaining slots with other already-reviewed cards regardless of dueness;
the queue stays within the session limit, contains only reviewed cards, and
contains no card twice. -/
theorem C7_weak_review_composition :
    ∀ (sh : List CardData → List CardData) (srs : List SRSCard)
      (allWords : List CardData) (ssz : Option Nat) (s : Session),
      (∀ l, List.Perm (sh l) l) → allWords.Nodup →
      startFullReviewSession sh srs allWords ssz = some s →
      s.studyQueue.Nodup ∧
      (∀ c ∈ s.studyQueue, (srsLookup srs c.id).isSome = true) ∧
      s.studyQueue.length ≤ fullReviewLimit srs ssz ∧
      fullReviewLimit srs ssz ≤ srs.length ∧
      (∀ c : CardData, ¬ 2 ≤ s.studyQueue.count c) := by
  intro sh srs allWords ssz s hsh hnd h
  unfold startFullReviewSession at h
  obtain ⟨hqueue, -, -, -, -⟩ := sessionFromQueue_some h
  obtain ⟨hnd2, hmem, hlen⟩ := fullReviewQueue_spec sh srs allWords ssz hsh hnd
  have hQnd : s.studyQueue.Nodup := by
    rw [hqueue]
    exact (hsh _).nodup_iff.mpr hnd2
  refine ⟨hQnd, ?_, ?_, ?_, ?_⟩
  · intro c hc
    rw [hqueue] at hc
    exact hmem c ((hsh _).mem_iff.mp hc)
  · rw [hqueue, (hsh _).length_eq]
    exact hlen
  · unfold fullReviewLimit
    cases ssz with
    | none => exact le_refl _
    | some n => exact Nat.min_le_right _ _
  · intro c
    have := List.nodup_iff_count_le_one.mp hQnd c
    omega

theorem C7_witness :
    (⟨[mkWord "w1" "c", mkWord "w2" "c", mkWord "w3" "c", mkWord "w4" "c",
       mkWord "w5" "c"], 0, true, 5, FULL_REVIEW_ID⟩ : Session).studyQueue.Nodup ∧
    (∀ c ∈ (⟨[mkWord "w1" "c", mkWord "w2" "c", mkWord "w3" "c", mkWord "w4" "c",
       mkWord "w5" "c"], 0, true, 5, FULL_REVIEW_ID⟩ : Session).studyQueue,
      (srsLookup c7srs c.id).isSome = true) ∧
    (⟨[mkWord "w1" "c", mkWord "w2" "c", mkWord "w3" "c", mkWord "w4" "c",
       mkWord "w5" "c"], 0, true, 5, FULL_REVIEW_ID⟩ : Session).studyQueue.length ≤
      fullReviewLimit c7srs (some 5) ∧
    fullReviewLimit c7srs (some 5) ≤ c7srs.length ∧
    (∀ c : CardData, ¬ 2 ≤ (⟨[mkWord "w1" "c", mkWord "w2" "c", mkWord "w3" "c",
       mkWord "w4" "c", mkWord "w5" "c"], 0, true, 5,
       FULL_REVIEW_ID⟩ : Session).studyQueue.count c) :=
  C7_weak_review_composition id c7srs c7words (some 5) _
    (fun l => List.Perm.refl l) (by decide) (by decide)

/-! The sentence-builder word-order check (C10). -/

theorem append_space_inj : ∀ (a : List Char), ' ' ∉ a → ∀ (b : List Char), ' ' ∉ b →
    ∀ (x y : List Char), a ++ ' ' :: x = b ++ ' ' :: y → a = b ∧ x = y := by
  intro a
  induction a with
  | nil =>
    intro _ b hb x y h
    cases b with
    | nil => simpa using h
    | cons d bs =>
      simp only [List.nil_append, List.cons_append, List.cons.injEq] at h
      obtain ⟨h1, -⟩ := h
      exact absurd (h1 ▸ List.mem_cons_self d bs) hb
  | cons c as ih =>
    intro ha b hb x y h
    cases b with
    | nil =>
      simp only [List.cons_append, List.nil_append, List.cons.injEq] at h
      obtain ⟨h1, -⟩ := h
      subst h1
      exact absurd (List.mem_cons_self _ _) ha
    | cons d bs =>
      simp only [List.cons_append, List.cons.injEq] at h
      obtain ⟨h1, h2⟩ := h
      subst h1
      have has : ' ' ∉ as := fun hm => ha (List.mem_cons_of_mem _ hm)
      have hbs : ' ' ∉ bs := fun hm => hb (List.mem_cons_of_mem _ hm)
      obtain ⟨hab, hxy⟩ := ih has bs hbs x y h2
      exact ⟨by rw [hab], hxy⟩

theorem joinSpace_inj : ∀ (l1 l2 : List (List Char)),
    (∀ t ∈ l1, ' ' ∉ t) → (∀ t ∈ l2, ' ' ∉ t) → l1.length = l2.length →
    joinSpace l1 = joinSpace l2 → l1 = l2 := by
  intro l1
  induction l1 with
  | nil =>
    intro l2 _ _ hlen _
    cases l2 with
    | nil => rfl
    | cons u us => simp at hlen
  | cons t ts ih =>
    intro l2 h1 h2 hlen hj
    cases l2 with
    | nil => simp at hlen
    | cons u us =>
      cases ts with
      | nil =>
        cases us with
        | nil =>
          simp only [joinSpace] at hj
          rw [hj]
        | cons u2 us2 => simp at hlen
      | cons t2 ts2 =>
        cases us with
        | nil => simp at hlen
        | cons u2 us2 =>
          simp only [joinSpace] at hj
          obtain ⟨htu, hrest⟩ :=
            append_space_inj t (h1 t (by simp)) u (h2 u (by simp)) _ _ hj
          have hxy := ih (u2 :: us2) (fun x hx => h1 x (List.mem_cons_of_mem _ hx))
            (fun x hx => h2 x (List.mem_cons_of_mem _ hx)) (by simpa using hlen) hrest
          rw [htu, hxy]

/-- C10 counterexample: against the canonical tokens "a", "b", "a b" (one
token containing a space), the answer "a b", "a", "b" - the same multiset
in a different sequence order, of equal length - is graded correct by the
join-based check, because both sides join to the string "a b a b". -/
theorem C10_counterexample :
    sentenceSuccess c10answer c10tokens = true ∧ c10answer ≠ c10tokens ∧
    c10answer.length = c10tokens.length ∧ List.Perm c10answer c10tokens := by
  refine ⟨by decide, by decide, by decide, by decide⟩

/-- C10 (amended): the completion check compares the space-joined renderings
of the constructed answer and the canonical token list; for answers of the
canonical length whose tokens (on both sides) contain no space character,
this coincides with exact ordered-sequence equality, so any reordering that
differs as a sequence is graded incorrect. -/
theorem C10_word_order :
    ∀ (constructed tokens : List (List Char)),
      (∀ t ∈ constructed, ' ' ∉ t) → (∀ t ∈ tokens, ' ' ∉ t) →
      constructed.length = tokens.length →
      (sentenceSuccess constructed tokens = true ↔ constructed = tokens) := by
  intro constructed tokens h1 h2 hlen
  unfold sentenceSuccess
  constructor
  · intro h
    exact joinSpace_inj _ _ h1 h2 hlen (by simpa using h)
  · intro h
    subst h
    simp

theorem C10_witness :
    sentenceSuccess [['h'], ['i']] [['h'], ['i']] = true ↔
      [['h'], ['i']] = [['h'], ['i']] :=
  C10_word_order [['h'], ['i']] [['h'], ['i']] (by decide) (by decide) (by decide)
